import Mathlib

/-!
# Verification of the transfer-strategy core

Shallow embedding of the strategy core of the football-transfer-strategy
simulator (`strategy/rules.py`, `strategy/market.py`, `strategy/kpi.py`).

Modelling conventions:
* `Player` keeps exactly the fields the strategy core reads
  (`player_id`, `name`, `age`, `position`, `market_value`); the remaining
  optional metadata fields (`nationality`, `current_club`, `birth_date`,
  `preferred_foot`) are never consulted by any strategy rule and are omitted.
* Money is in whole euros (`Nat` for market values and fees, `Int` for
  the running budgets, which the code may in principle drive negative).
* Python's `int(x * ratio)` on a non-negative product is modelled as exact
  rational truncation `x * num / den` with `Nat` floor division
  (e.g. `int(v * 0.85)` becomes `v * 85 / 100`).  The Python source goes
  through binary floating point, which can differ from the exact decimal
  product by one ulp for some inputs; every concrete input used below was
  chosen away from such boundary values.
* Python lists are `List`, `list.remove` is `List.erase` (first equal
  element, pydantic models compare by field values), the `dict`-backed
  market pool is a `List Player` with dict insertion/overwrite semantics
  (`mk_pool`) and `dict.pop` is `List.eraseP` on the id.
* The two unbounded `while made_purchase` loops of `buy_phase` are given
  fuel `pool.length + 1`; the adequacy of that fuel (each purchasing sweep
  strictly shrinks the pool) is proved below as the termination claim.
-/

/-- The four coarse position groups used by the engine. -/
inductive PosGroup
  | GK
  | DEF
  | MID
  | ATT
deriving DecidableEq

/-- The fields of `scraper.schemas.Player` read by the strategy core. -/
structure Player where
  player_id : String
  name : String
  age : Option Nat
  position : Option String
  market_value : Option Nat
deriving DecidableEq

/-- `strategy.market.POSITION_MAP`: Transfermarkt position label → group. -/
def POSITION_MAP : List (String × PosGroup) :=
  [("Goalkeeper", .GK),
   ("Sweeper", .DEF),
   ("Centre-Back", .DEF),
   ("Left-Back", .DEF),
   ("Right-Back", .DEF),
   ("Defensive Midfield", .MID),
   ("Central Midfield", .MID),
   ("Left Midfield", .MID),
   ("Right Midfield", .MID),
   ("Attacking Midfield", .MID),
   ("Left Winger", .ATT),
   ("Right Winger", .ATT),
   ("Second Striker", .ATT),
   ("Centre-Forward", .ATT)]

/-- `strategy.market.get_position_group`: `None` and unmapped labels map to
`none` (an empty-string label is unmapped, so the Python falsiness check is
subsumed by the lookup). -/
def get_position_group (position : Option String) : Option PosGroup :=
  position.bind fun s => POSITION_MAP.lookup s

/-- `strategy.market.POSITION_THRESHOLDS`: (min, max) headcount per group. -/
def POSITION_THRESHOLDS : PosGroup → Nat × Nat
  | .GK => (2, 3)
  | .DEF => (5, 12)
  | .MID => (5, 12)
  | .ATT => (3, 10)

/-- The fixed iteration order of `POSITION_THRESHOLDS.items()`
(Python dict insertion order). -/
def GROUPS : List PosGroup := [.GK, .DEF, .MID, .ATT]

/-- `strategy.market.estimate_salary`: 10% of market value, 0 when absent
(or zero, which Python's falsiness check also sends to 0 — same value). -/
def estimate_salary : Option Nat → Nat
  | none => 0
  | some v => v / 10

/-- `strategy.rules.PROSPECT_AGE`. -/
def PROSPECT_AGE : Nat := 21

/-- `strategy.rules.PROSPECT_VALUE_THRESHOLD`. -/
def PROSPECT_VALUE_THRESHOLD : Nat := 3000000

/-- `strategy.rules.MAX_DECLINE_SELLS`. -/
def MAX_DECLINE_SELLS : Nat := 6

/-- `strategy.rules.MAX_BLOAT_SELLS`. -/
def MAX_BLOAT_SELLS : Nat := 6

/-- `strategy.rules._MODE_PARAMS` over the three `StrategyMode` literals. -/
inductive StrategyMode
  | balanced
  | conservative
  | win_now
deriving DecidableEq

/-- `strategy.rules._get_mode_params`:
(decline_age, prime_age_min, prime_age_max, single_ratio·100, total_ratio·100).
The two ratios are scaled by 100 so the derived caps are exact `Nat`
truncations of the decimal products. -/
def get_mode_params : StrategyMode → Nat × Nat × Nat × Nat × Nat
  | .balanced => (32, 22, 27, 40, 100)
  | .conservative => (29, 19, 24, 25, 50)
  | .win_now => (35, 22, 30, 60, 100)

/-- `int((p.market_value or 0) * SELL_FEE_FACTOR)` with `SELL_FEE_FACTOR = 0.85`. -/
def sell_fee (p : Player) : Nat := p.market_value.getD 0 * 85 / 100

/-- The decline-sell sort key `p.age or 0` from `sorted(squad, key=..., reverse=True)`. -/
def decline_key (p : Player) : Nat := p.age.getD 0

/-- The value key `p.market_value or 0` used by the bloat sort and the market sort. -/
def mv_key (p : Player) : Nat := p.market_value.getD 0

/-- The bloat-sell prospect-protection test
`(player.age or 99) < PROSPECT_AGE and (player.market_value or 0) >= PROSPECT_VALUE_THRESHOLD`. -/
def prospect_protected (p : Player) : Bool :=
  decide (p.age.getD 99 < PROSPECT_AGE) && decide (PROSPECT_VALUE_THRESHOLD ≤ p.market_value.getD 0)

/-- `strategy.rules._count_group`. -/
def count_group (squad : List Player) (g : PosGroup) : Nat :=
  (squad.filter fun p => get_position_group p.position == some g).length

/-- `strategy.rules._get_group`. -/
def get_group (squad : List Player) (g : PosGroup) : List Player :=
  squad.filter fun p => get_position_group p.position == some g

/-- `strategy.rules._total_salary`. -/
def total_salary (squad : List Player) : Nat :=
  (squad.map fun p => estimate_salary p.market_value).sum

/-- Stable insertion (descending by `key`): an element is placed before the
first strictly-smaller key, after all earlier elements with ≥ key.  Combined
with `sortDescBy` this reproduces Python's stable
`sorted(key=..., reverse=True)`. -/
def insertDescBy (key : Player → Nat) (x : Player) : List Player → List Player
  | [] => [x]
  | y :: ys => if key y ≤ key x then x :: y :: ys else y :: insertDescBy key x ys

/-- Stable descending sort by `key` (Python `sorted(..., reverse=True)`). -/
def sortDescBy (key : Player → Nat) (l : List Player) : List Player :=
  l.foldr (insertDescBy key) []

/-- Stable insertion (ascending by `key`). -/
def insertAscBy (key : Player → Nat) (x : Player) : List Player → List Player
  | [] => [x]
  | y :: ys => if key x ≤ key y then x :: y :: ys else y :: insertAscBy key x ys

/-- Stable ascending sort by `key` (Python `list.sort(key=...)`). -/
def sortAscBy (key : Player → Nat) (l : List Player) : List Player :=
  l.foldr (insertAscBy key) []

/-- Rule 1 of `sell_phase` (decline sell): walk the age-descending snapshot
of the original squad, stopping at the sell cap or at the first player below
the decline age, selling whenever the player's group stays above its
minimum.  State is (current squad, decline-sold list, transfer budget). -/
def decline_loop (declineAge : Nat) :
    List Player → List Player × List Player × Int → List Player × List Player × Int
  | [], st => st
  | p :: ps, (squad, soldD, budget) =>
    if MAX_DECLINE_SELLS ≤ soldD.length then (squad, soldD, budget)
    else if decline_key p < declineAge then (squad, soldD, budget)
    else
      match get_position_group p.position with
      | none => decline_loop declineAge ps (squad, soldD, budget)
      | some g =>
        if (POSITION_THRESHOLDS g).1 < count_group squad g then
          decline_loop declineAge ps
            (squad.erase p, soldD ++ [p], budget + (sell_fee p : Int))
        else decline_loop declineAge ps (squad, soldD, budget)

/-- Inner loop of rule 2 of `sell_phase` (bloat sell) for one group: walk the
value-ascending snapshot of the group, stopping at the global bloat cap or
once the group is down to its target, skipping protected prospects.  State is
(squad, sold list, bloat-sold count, budget). -/
def bloat_inner (g : PosGroup) (target : Nat) :
    List Player → List Player × List Player × Nat × Int → List Player × List Player × Nat × Int
  | [], st => st
  | p :: ps, (squad, sold, cnt, budget) =>
    if MAX_BLOAT_SELLS ≤ cnt then (squad, sold, cnt, budget)
    else if count_group squad g ≤ target then (squad, sold, cnt, budget)
    else if prospect_protected p then bloat_inner g target ps (squad, sold, cnt, budget)
    else bloat_inner g target ps
      (squad.erase p, sold ++ [p], cnt + 1, budget + (sell_fee p : Int))

/-- Outer loop of rule 2 of `sell_phase`: iterate the groups in the fixed
order, trimming each group over `max(min, max - 2)`. -/
def bloat_loop :
    List PosGroup → List Player × List Player × Nat × Int → List Player × List Player × Nat × Int
  | [], st => st
  | g :: gs, (squad, sold, cnt, budget) =>
    if MAX_BLOAT_SELLS ≤ cnt then (squad, sold, cnt, budget)
    else if (sortAscBy mv_key (get_group squad g)).length ≤
        max (POSITION_THRESHOLDS g).1 ((POSITION_THRESHOLDS g).2 - 2) then
      bloat_loop gs (squad, sold, cnt, budget)
    else
      bloat_loop gs
        (bloat_inner g (max (POSITION_THRESHOLDS g).1 ((POSITION_THRESHOLDS g).2 - 2))
          (sortAscBy mv_key (get_group squad g)) (squad, sold, cnt, budget))

/-- `strategy.rules.sell_phase`: decline sells, then bloat sells; returns
(updated squad, players sold in order, updated transfer budget). -/
def sell_phase (squad : List Player) (transfer_budget : Int) (mode : StrategyMode) :
    List Player × List Player × Int :=
  let declineAge := (get_mode_params mode).1
  let d := decline_loop declineAge (sortDescBy decline_key squad) (squad, [], transfer_budget)
  let b := bloat_loop GROUPS (d.1, d.2.1, 0, d.2.2)
  (b.1, b.2.1, b.2.2.2)

/-- `strategy.market.TransferMarket.__init__`: dict construction from the
input list — later duplicate ids overwrite the earlier value in place,
otherwise appended, and `.values()` iterates in that order. -/
def mk_pool (players : List Player) : List Player :=
  players.foldl
    (fun acc p =>
      if acc.any fun q => q.player_id == p.player_id then
        acc.map fun q => if q.player_id == p.player_id then p else q
      else acc ++ [p])
    []

/-- `strategy.market.TransferMarket.get_candidates`: affordable members of
the group, sorted by market value descending (stable). -/
def get_candidates (pool : List Player) (g : PosGroup) (maxFee : Int) : List Player :=
  sortDescBy mv_key
    (pool.filter fun p =>
      (get_position_group p.position == some g) &&
        decide ((p.market_value.getD 0 : Int) ≤ maxFee))

/-- `strategy.market.TransferMarket.remove_player`: `dict.pop(id, None)` —
drop the (unique) entry with this id, no-op when absent. -/
def remove_player (pool : List Player) (pid : String) : List Player :=
  pool.eraseP fun q => q.player_id == pid

/-- `age_min is not None and age < age_min` with `age = candidate.age or 0`. -/
def below_age_min (ageMin : Option Nat) (age : Nat) : Bool :=
  match ageMin with
  | some m => decide (age < m)
  | none => false

/-- `age_max is not None and age > age_max` with `age = candidate.age or 0`. -/
def above_age_max (ageMax : Option Nat) (age : Nat) : Bool :=
  match ageMax with
  | some m => decide (m < age)
  | none => false

/-- The candidate walk inside `strategy.rules._buy_best_candidate`: first
candidate in the value-descending list passing the single-fee cap, the
optional age bounds, and the salary check. -/
def pick_candidate (ageMin ageMax : Option Nat) (cap salaryRemaining : Int) :
    List Player → Option Player
  | [] => none
  | c :: cs =>
    if cap < (c.market_value.getD 0 : Int) then
      pick_candidate ageMin ageMax cap salaryRemaining cs
    else if below_age_min ageMin (c.age.getD 0) then
      pick_candidate ageMin ageMax cap salaryRemaining cs
    else if above_age_max ageMax (c.age.getD 0) then
      pick_candidate ageMin ageMax cap salaryRemaining cs
    else if salaryRemaining < (estimate_salary c.market_value : Int) then
      pick_candidate ageMin ageMax cap salaryRemaining cs
    else some c

/-- `strategy.rules._buy_best_candidate`: returns
(purchased player or `none`, transfer budget, salary used, fee paid, pool).
The salary headroom `salary_budget - salary_used` is computed once on entry,
as in the source. -/
def buy_best_candidate (pool : List Player) (g : PosGroup)
    (transfer_budget salary_budget : Int) (salary_used : Nat)
    (ageMin ageMax : Option Nat) (max_fee_cap : Int) :
    Option Player × Int × Nat × Nat × List Player :=
  match pick_candidate ageMin ageMax max_fee_cap (salary_budget - (salary_used : Int))
      (get_candidates pool g transfer_budget) with
  | none => (none, transfer_budget, salary_used, 0, pool)
  | some c =>
    (some c, transfer_budget - (c.market_value.getD 0 : Int),
      salary_used + estimate_salary c.market_value,
      c.market_value.getD 0, remove_player pool c.player_id)

/-- The running state of `buy_phase` (squad, bought list, market pool,
transfer budget, salary used, total fees paid). -/
structure BuyState where
  squad : List Player
  bought : List Player
  pool : List Player
  tb : Int
  salary_used : Nat
  paid : Nat
deriving DecidableEq

/-- One loop body of a `buy_phase` pass for one group: skip the group when
its count has reached `limit g` (the group minimum in pass 1, the maximum in
pass 2), otherwise attempt one purchase with effective cap
`min(max_single_fee, max_total_fees - total_fees_paid)`; on success append
the player to squad and bought-list and add its fee to the paid total.  The
flag is this group's contribution to `made_purchase`. -/
def group_step (limit : PosGroup → Nat) (sb : Int) (maxSingle maxTotal : Nat)
    (ageMin ageMax : Option Nat) (g : PosGroup) (st : BuyState) : BuyState × Bool :=
  if limit g ≤ count_group st.squad g then (st, false)
  else
    match buy_best_candidate st.pool g st.tb sb st.salary_used ageMin ageMax
        (min (maxSingle : Int) ((maxTotal : Int) - (st.paid : Int))) with
    | (some p, tb', su', fee, pool') =>
      (⟨st.squad ++ [p], st.bought ++ [p], pool', tb', su', st.paid + fee⟩, true)
    | (none, tb', su', _, pool') =>
      ({ st with tb := tb', salary_used := su', pool := pool' }, false)

/-- One `for group in POSITION_THRESHOLDS.items()` sweep of a `buy_phase`
pass: the groups are visited in order, each eligible group gets one purchase
attempt, and the sweep's flag is `made_purchase` — true when any group step
purchased. -/
def sweep_groups (limit : PosGroup → Nat) (sb : Int) (maxSingle maxTotal : Nat)
    (ageMin ageMax : Option Nat) : List PosGroup → BuyState → BuyState × Bool
  | [], st => (st, false)
  | g :: gs, st =>
    ((sweep_groups limit sb maxSingle maxTotal ageMin ageMax gs
        (group_step limit sb maxSingle maxTotal ageMin ageMax g st).1).1,
      (group_step limit sb maxSingle maxTotal ageMin ageMax g st).2 ||
        (sweep_groups limit sb maxSingle maxTotal ageMin ageMax gs
          (group_step limit sb maxSingle maxTotal ageMin ageMax g st).1).2)

/-- The `while made_purchase` loop of a `buy_phase` pass: stop when the
total-spend cap is reached at the top of a sweep or when a full sweep makes
no purchase.  The fuel argument is supplied as `pool.length + 1` by
`buy_phase`; its adequacy is proved with the termination claim. -/
def pass_loop (limit : PosGroup → Nat) (sb : Int) (maxSingle maxTotal : Nat)
    (ageMin ageMax : Option Nat) : Nat → BuyState → BuyState
  | 0, st => st
  | fuel + 1, st =>
    if maxTotal ≤ st.paid then st
    else if (sweep_groups limit sb maxSingle maxTotal ageMin ageMax GROUPS st).2 then
      pass_loop limit sb maxSingle maxTotal ageMin ageMax fuel
        (sweep_groups limit sb maxSingle maxTotal ageMin ageMax GROUPS st).1
    else (sweep_groups limit sb maxSingle maxTotal ageMin ageMax GROUPS st).1

/-- `int(original_transfer_budget * single_signing_ratio)` (exact rational
truncation of the decimal ratio). -/
def max_single_fee (otb : Nat) (mode : StrategyMode) : Nat :=
  otb * (get_mode_params mode).2.2.2.1 / 100

/-- `int(original_transfer_budget * max_total_spend_ratio)` (exact rational
truncation of the decimal ratio). -/
def max_total_fees (otb : Nat) (mode : StrategyMode) : Nat :=
  otb * (get_mode_params mode).2.2.2.2 / 100

/-- `strategy.rules.buy_phase`: two-pass buying over the market pool; returns
(updated squad, players bought, updated transfer budget, salary used).  The
`market` argument is the player list the `TransferMarket` is built from. -/
def buy_phase (squad : List Player) (market : List Player)
    (transfer_budget salary_budget : Int) (original_transfer_budget : Nat)
    (mode : StrategyMode) : List Player × List Player × Int × Nat :=
  let primeMin := (get_mode_params mode).2.1
  let primeMax := (get_mode_params mode).2.2.1
  let maxSingle := max_single_fee original_transfer_budget mode
  let maxTotal := max_total_fees original_transfer_budget mode
  let st0 : BuyState :=
    ⟨squad, [], mk_pool market, transfer_budget, total_salary squad, 0⟩
  let st1 := pass_loop (fun g => (POSITION_THRESHOLDS g).1) salary_budget
    maxSingle maxTotal none none (st0.pool.length + 1) st0
  let st2 := pass_loop (fun g => (POSITION_THRESHOLDS g).2) salary_budget
    maxSingle maxTotal (some primeMin) (some primeMax) (st1.pool.length + 1) st1
  (st2.squad, st2.bought, st2.tb, st2.salary_used)

/-- `strategy.kpi.AGE_VALUE_MULTIPLIERS` / `strategy.kpi._get_multiplier`,
scaled by 100: the bucket table returns 1.15/1.10/1.03/0.95/0.90/0.80, and
the fallback for ages ≥ 99 coincides with the 33+ tier. -/
def get_multiplier100 (age : Nat) : Nat :=
  if age < 21 then 115
  else if age < 25 then 110
  else if age < 29 then 103
  else if age < 31 then 95
  else if age < 33 then 90
  else 80

/-- One iteration of the `strategy.kpi.apply_age_progression` loop:
`model_copy`, increment the age (absent age counts as 0), and rescale a
present, non-zero market value by the pre-increment-age multiplier
(`int(mv * multiplier)`, exact rational truncation). -/
def age_step (p : Player) : Player :=
  let updated : Player := { p with age := some (p.age.getD 0 + 1) }
  match p.market_value with
  | none => updated
  | some v =>
    if v = 0 then updated
    else { updated with market_value := some (v * get_multiplier100 (p.age.getD 0) / 100) }

/-- `strategy.kpi.apply_age_progression`. -/
def apply_age_progression (squad : List Player) : List Player :=
  squad.map age_step

/-- `sum(p.market_value or 0 for p in players_bought)` in `compute_kpis`. -/
def fees_paid (bought : List Player) : Nat :=
  (bought.map fun p => p.market_value.getD 0).sum

/-- `sum(int((p.market_value or 0) * 0.85) for p in players_sold)` in
`compute_kpis` (exact rational truncation of the decimal product). -/
def fees_received (sold : List Player) : Nat :=
  (sold.map fun p => p.market_value.getD 0 * 85 / 100).sum

/-- `strategy.kpi._total_valuation`. -/
def total_valuation (squad : List Player) : Nat :=
  (squad.map fun p => p.market_value.getD 0).sum

/-- The integer fields of `strategy.models.KPIs` (the two float
average-age fields go through Python float rounding and are not needed by
any claim, so they are left out of the embedding). -/
structure KPIs where
  total_valuation_before : Nat
  total_valuation_after : Nat
  valuation_change : Int
  net_spend : Int
  salary_used : Nat
  salary_budget : Int
  salary_budget_remaining : Int
  transfer_budget_remaining : Int
deriving DecidableEq

/-- `strategy.kpi.compute_kpis` (integer fields). -/
def compute_kpis (squad_before squad_after bought sold : List Player)
    (transfer_budget_remaining salary_budget : Int) (salary_used : Nat) : KPIs :=
  { total_valuation_before := total_valuation squad_before
    total_valuation_after := total_valuation squad_after
    valuation_change := (total_valuation squad_after : Int) - (total_valuation squad_before : Int)
    net_spend := (fees_paid bought : Int) - (fees_received sold : Int)
    salary_used := salary_used
    salary_budget := salary_budget
    salary_budget_remaining := salary_budget - (salary_used : Int)
    transfer_budget_remaining := transfer_budget_remaining }

/-- Modelled from the spec's notation `round(x)`: the nearest integer to the
exact rational `num / den`, halves rounded up.  Used only to state what the
spec's `round` would produce where it differs from the code's truncation. -/
def spec_round (num den : Nat) : Nat := (2 * num + den) / (2 * den)

/-! ## Basic list lemmas about the embedding's helpers -/

theorem count_group_nil (g : PosGroup) : count_group [] g = 0 := rfl

theorem count_group_cons (a : Player) (l : List Player) (g : PosGroup) :
    count_group (a :: l) g =
      (if get_position_group a.position = some g then 1 else 0) + count_group l g := by
  simp only [count_group, List.filter_cons]
  by_cases h : get_position_group a.position = some g
  · simp only [h]
    simp
    omega
  · simp [h]

theorem count_group_erase_of_ne (x : Player) (g : PosGroup)
    (h : get_position_group x.position ≠ some g) :
    ∀ l : List Player, count_group (l.erase x) g = count_group l g
  | [] => rfl
  | a :: l => by
    rw [List.erase_cons]
    by_cases hax : a = x
    · rw [if_pos (by simp [hax]), count_group_cons, hax, if_neg h]
      omega
    · rw [if_neg (by simp [hax]), count_group_cons, count_group_cons,
        count_group_erase_of_ne x g h l]

theorem count_group_le_erase_add_one (x : Player) (g : PosGroup) :
    ∀ l : List Player, count_group l g ≤ count_group (l.erase x) g + 1
  | [] => by simp [count_group]
  | a :: l => by
    rw [List.erase_cons]
    by_cases hax : a = x
    · rw [if_pos (by simp [hax]), count_group_cons]
      split <;> omega
    · rw [if_neg (by simp [hax]), count_group_cons, count_group_cons]
      have := count_group_le_erase_add_one x g l
      omega

theorem mem_insertDescBy {key : Player → Nat} {x y : Player} :
    ∀ {l : List Player}, y ∈ insertDescBy key x l → y = x ∨ y ∈ l
  | [], h => by
    rw [insertDescBy] at h
    simp at h
    exact Or.inl h
  | a :: l, h => by
    rw [insertDescBy] at h
    split at h
    · rw [List.mem_cons] at h
      exact h.imp id id
    · rw [List.mem_cons] at h
      rcases h with h | h
      · exact Or.inr (by simp [h])
      · rcases mem_insertDescBy h with h2 | h2
        · exact Or.inl h2
        · exact Or.inr (List.mem_cons_of_mem a h2)

theorem mem_sortDescBy {key : Player → Nat} :
    ∀ {l : List Player} {x : Player}, x ∈ sortDescBy key l → x ∈ l
  | [], x, h => by simp [sortDescBy] at h
  | a :: l, x, h => by
    rw [sortDescBy, List.foldr_cons] at h
    rcases mem_insertDescBy h with h | h
    · simp [h]
    · exact List.mem_cons_of_mem a (mem_sortDescBy h)

theorem mem_insertAscBy {key : Player → Nat} {x y : Player} :
    ∀ {l : List Player}, y ∈ insertAscBy key x l → y = x ∨ y ∈ l
  | [], h => by
    rw [insertAscBy] at h
    simp at h
    exact Or.inl h
  | a :: l, h => by
    rw [insertAscBy] at h
    split at h
    · rw [List.mem_cons] at h
      exact h.imp id id
    · rw [List.mem_cons] at h
      rcases h with h | h
      · exact Or.inr (by simp [h])
      · rcases mem_insertAscBy h with h2 | h2
        · exact Or.inl h2
        · exact Or.inr (List.mem_cons_of_mem a h2)

theorem mem_sortAscBy {key : Player → Nat} :
    ∀ {l : List Player} {x : Player}, x ∈ sortAscBy key l → x ∈ l
  | [], x, h => by simp [sortAscBy] at h
  | a :: l, x, h => by
    rw [sortAscBy, List.foldr_cons] at h
    rcases mem_insertAscBy h with h | h
    · simp [h]
    · exact List.mem_cons_of_mem a (mem_sortAscBy h)

theorem fees_paid_append (l : List Player) (p : Player) :
    fees_paid (l ++ [p]) = fees_paid l + p.market_value.getD 0 := by
  simp [fees_paid]

/-! ## Inversion lemmas for the candidate walk and the single purchase -/

theorem pick_candidate_sound {ageMin ageMax : Option Nat} {cap rem : Int} {c : Player} :
    ∀ {l : List Player}, pick_candidate ageMin ageMax cap rem l = some c →
      c ∈ l ∧ (c.market_value.getD 0 : Int) ≤ cap ∧
        (estimate_salary c.market_value : Int) ≤ rem
  | [], h => by simp [pick_candidate] at h
  | a :: l, h => by
    rw [pick_candidate] at h
    split at h
    · next hfee =>
      have := pick_candidate_sound h
      exact ⟨List.mem_cons_of_mem a this.1, this.2⟩
    · next hfee =>
      split at h
      · have := pick_candidate_sound h
        exact ⟨List.mem_cons_of_mem a this.1, this.2⟩
      · split at h
        · have := pick_candidate_sound h
          exact ⟨List.mem_cons_of_mem a this.1, this.2⟩
        · split at h
          · next hsal =>
            have := pick_candidate_sound h
            exact ⟨List.mem_cons_of_mem a this.1, this.2⟩
          · next hsal =>
            cases h
            exact ⟨List.mem_cons_self _ _, le_of_not_lt hfee, le_of_not_lt hsal⟩

theorem get_candidates_mem {pool : List Player} {g : PosGroup} {maxFee : Int} {c : Player}
    (h : c ∈ get_candidates pool g maxFee) :
    c ∈ pool ∧ get_position_group c.position = some g := by
  have h1 := mem_sortDescBy h
  have h2 := List.mem_filter.1 h1
  refine ⟨h2.1, ?_⟩
  have h3 := h2.2
  simp only [Bool.and_eq_true, beq_iff_eq, decide_eq_true_eq] at h3
  exact h3.1

theorem buy_best_some {pool : List Player} {g : PosGroup} {tb sb : Int} {su : Nat}
    {ageMin ageMax : Option Nat} {cap : Int} {p : Player}
    (h : (buy_best_candidate pool g tb sb su ageMin ageMax cap).1 = some p) :
    buy_best_candidate pool g tb sb su ageMin ageMax cap =
      (some p, tb - (p.market_value.getD 0 : Int), su + estimate_salary p.market_value,
        p.market_value.getD 0, remove_player pool p.player_id) ∧
    ((p.market_value.getD 0 : Int) ≤ cap) ∧
    ((estimate_salary p.market_value : Int) ≤ sb - (su : Int)) ∧
    p ∈ pool ∧ get_position_group p.position = some g := by
  unfold buy_best_candidate at h ⊢
  cases hp : pick_candidate ageMin ageMax cap (sb - (su : Int)) (get_candidates pool g tb) with
  | none => rw [hp] at h; simp at h
  | some c =>
    rw [hp] at h
    simp only at h
    cases h
    have hs := pick_candidate_sound hp
    have hm := get_candidates_mem hs.1
    exact ⟨rfl, hs.2.1, hs.2.2, hm.1, hm.2⟩

theorem buy_best_none {pool : List Player} {g : PosGroup} {tb sb : Int} {su : Nat}
    {ageMin ageMax : Option Nat} {cap : Int}
    (h : (buy_best_candidate pool g tb sb su ageMin ageMax cap).1 = none) :
    buy_best_candidate pool g tb sb su ageMin ageMax cap = (none, tb, su, 0, pool) := by
  unfold buy_best_candidate at h ⊢
  cases hp : pick_candidate ageMin ageMax cap (sb - (su : Int)) (get_candidates pool g tb) with
  | none => rfl
  | some c => rw [hp] at h; simp at h

/-! ## Behaviour of one group step -/

section BuyPhaseLemmas

variable (limit : PosGroup → Nat) (sb : Int) (maxSingle maxTotal : Nat)
variable (ageMin ageMax : Option Nat)

theorem group_step_skip {g : PosGroup} {st : BuyState}
    (h : limit g ≤ count_group st.squad g) :
    group_step limit sb maxSingle maxTotal ageMin ageMax g st = (st, false) := by
  unfold group_step
  rw [if_pos h]

theorem group_step_none {g : PosGroup} {st : BuyState}
    (h1 : ¬ limit g ≤ count_group st.squad g)
    (h2 : (buy_best_candidate st.pool g st.tb sb st.salary_used ageMin ageMax
        (min (maxSingle : Int) ((maxTotal : Int) - (st.paid : Int)))).1 = none) :
    group_step limit sb maxSingle maxTotal ageMin ageMax g st = (st, false) := by
  unfold group_step
  rw [if_neg h1, buy_best_none h2]

theorem group_step_some {g : PosGroup} {st : BuyState} {p : Player}
    (h1 : ¬ limit g ≤ count_group st.squad g)
    (h2 : (buy_best_candidate st.pool g st.tb sb st.salary_used ageMin ageMax
        (min (maxSingle : Int) ((maxTotal : Int) - (st.paid : Int)))).1 = some p) :
    group_step limit sb maxSingle maxTotal ageMin ageMax g st =
      (⟨st.squad ++ [p], st.bought ++ [p], remove_player st.pool p.player_id,
        st.tb - (p.market_value.getD 0 : Int),
        st.salary_used + estimate_salary p.market_value,
        st.paid + p.market_value.getD 0⟩, true) ∧
    ((p.market_value.getD 0 : Int) ≤
      min (maxSingle : Int) ((maxTotal : Int) - (st.paid : Int))) ∧
    ((estimate_salary p.market_value : Int) ≤ sb - (st.salary_used : Int)) ∧
    p ∈ st.pool ∧ get_position_group p.position = some g := by
  obtain ⟨heq, hcap, hsal, hmem, hgrp⟩ := buy_best_some h2
  refine ⟨?_, hcap, hsal, hmem, hgrp⟩
  unfold group_step
  rw [if_neg h1, heq]

/-- A group step either leaves the state unchanged with no purchase, or
purchases exactly one candidate of that group under the effective cap and
the salary headroom. -/
theorem group_step_spec (g : PosGroup) (st : BuyState) :
    group_step limit sb maxSingle maxTotal ageMin ageMax g st = (st, false) ∨
    ∃ p : Player,
      group_step limit sb maxSingle maxTotal ageMin ageMax g st =
        (⟨st.squad ++ [p], st.bought ++ [p], remove_player st.pool p.player_id,
          st.tb - (p.market_value.getD 0 : Int),
          st.salary_used + estimate_salary p.market_value,
          st.paid + p.market_value.getD 0⟩, true) ∧
      ((p.market_value.getD 0 : Int) ≤
        min (maxSingle : Int) ((maxTotal : Int) - (st.paid : Int))) ∧
      ((estimate_salary p.market_value : Int) ≤ sb - (st.salary_used : Int)) ∧
      p ∈ st.pool ∧ get_position_group p.position = some g := by
  by_cases h1 : limit g ≤ count_group st.squad g
  · exact Or.inl (group_step_skip limit sb maxSingle maxTotal ageMin ageMax h1)
  · cases h2 : (buy_best_candidate st.pool g st.tb sb st.salary_used ageMin ageMax
        (min (maxSingle : Int) ((maxTotal : Int) - (st.paid : Int)))).1 with
    | none => exact Or.inl (group_step_none limit sb maxSingle maxTotal ageMin ageMax h1 h2)
    | some p =>
      exact Or.inr ⟨p, group_step_some limit sb maxSingle maxTotal ageMin ageMax h1 h2⟩

theorem sweep_groups_cons_fst (g : PosGroup) (gs : List PosGroup) (st : BuyState) :
    (sweep_groups limit sb maxSingle maxTotal ageMin ageMax (g :: gs) st).1 =
      (sweep_groups limit sb maxSingle maxTotal ageMin ageMax gs
        (group_step limit sb maxSingle maxTotal ageMin ageMax g st).1).1 := rfl

theorem sweep_groups_cons_snd (g : PosGroup) (gs : List PosGroup) (st : BuyState) :
    (sweep_groups limit sb maxSingle maxTotal ageMin ageMax (g :: gs) st).2 =
      ((group_step limit sb maxSingle maxTotal ageMin ageMax g st).2 ||
        (sweep_groups limit sb maxSingle maxTotal ageMin ageMax gs
          (group_step limit sb maxSingle maxTotal ageMin ageMax g st).1).2) := rfl

/-- Through a sweep, the paid total never exceeds the total-spend cap and
stays equal to the sum of the bought players' fees. -/
theorem sweep_fees : ∀ (gs : List PosGroup) (st : BuyState),
    st.paid ≤ maxTotal → fees_paid st.bought = st.paid →
    (sweep_groups limit sb maxSingle maxTotal ageMin ageMax gs st).1.paid ≤ maxTotal ∧
      fees_paid (sweep_groups limit sb maxSingle maxTotal ageMin ageMax gs st).1.bought =
        (sweep_groups limit sb maxSingle maxTotal ageMin ageMax gs st).1.paid
  | [], _, h1, h2 => ⟨h1, h2⟩
  | g :: gs, st, h1, h2 => by
    rw [sweep_groups_cons_fst]
    rcases group_step_spec limit sb maxSingle maxTotal ageMin ageMax g st with
      h | ⟨p, heq, hcap, -, -, -⟩
    · rw [h]
      exact sweep_fees gs st h1 h2
    · rw [heq]
      have hA : st.paid + p.market_value.getD 0 ≤ maxTotal := by
        have h3 := le_trans hcap (min_le_right _ _)
        omega
      have hB : fees_paid (st.bought ++ [p]) = st.paid + p.market_value.getD 0 := by
        rw [fees_paid_append, h2]
      exact sweep_fees gs _ hA hB

/-- Through a sweep, the salary commitment never exceeds the salary budget. -/
theorem sweep_salary : ∀ (gs : List PosGroup) (st : BuyState),
    (st.salary_used : Int) ≤ sb →
    ((sweep_groups limit sb maxSingle maxTotal ageMin ageMax gs st).1.salary_used : Int) ≤ sb
  | [], _, h1 => h1
  | g :: gs, st, h1 => by
    rw [sweep_groups_cons_fst]
    rcases group_step_spec limit sb maxSingle maxTotal ageMin ageMax g st with
      h | ⟨p, heq, -, hsal, -, -⟩
    · rw [h]
      exact sweep_salary gs st h1
    · rw [heq]
      refine sweep_salary gs _ ?_
      show ((st.salary_used + estimate_salary p.market_value : Nat) : Int) ≤ sb
      push_cast
      omega

/-- Through a sweep, the pool never grows, and strictly shrinks whenever the
sweep reports a purchase. -/
theorem sweep_pool : ∀ (gs : List PosGroup) (st : BuyState),
    (sweep_groups limit sb maxSingle maxTotal ageMin ageMax gs st).1.pool.length ≤
        st.pool.length ∧
      ((sweep_groups limit sb maxSingle maxTotal ageMin ageMax gs st).2 = true →
        (sweep_groups limit sb maxSingle maxTotal ageMin ageMax gs st).1.pool.length <
          st.pool.length)
  | [], st => ⟨le_refl _, fun h => by rw [sweep_groups] at h; cases h⟩
  | g :: gs, st => by
    rw [sweep_groups_cons_fst, sweep_groups_cons_snd]
    rcases group_step_spec limit sb maxSingle maxTotal ageMin ageMax g st with
      h | ⟨p, heq, -, -, hmem, -⟩
    · rw [h]
      have ih := sweep_pool gs st
      refine ⟨ih.1, fun hf => ih.2 ?_⟩
      rw [Bool.false_or] at hf
      exact hf
    · rw [heq]
      have hlt : (remove_player st.pool p.player_id).length < st.pool.length := by
        have h4 := @List.length_eraseP_add_one Player
          (fun q => q.player_id == p.player_id) st.pool p hmem (by simp)
        unfold remove_player
        omega
      have ih := sweep_pool gs
        (⟨st.squad ++ [p], st.bought ++ [p], remove_player st.pool p.player_id,
          st.tb - (p.market_value.getD 0 : Int),
          st.salary_used + estimate_salary p.market_value,
          st.paid + p.market_value.getD 0⟩ : BuyState)
      exact ⟨le_trans ih.1 (le_of_lt hlt), fun _ => lt_of_le_of_lt ih.1 hlt⟩

/-- Through a sweep, the bought list grows only at the tail, with at most
one new player per group of the sweep's group list. -/
theorem sweep_bought : ∀ (gs : List PosGroup) (st : BuyState),
    ∃ ns : List Player,
      (sweep_groups limit sb maxSingle maxTotal ageMin ageMax gs st).1.bought =
          st.bought ++ ns ∧
        ∀ g0 : PosGroup,
          (ns.filter fun p => get_position_group p.position == some g0).length ≤
            List.count g0 gs
  | [], st => ⟨[], by rw [sweep_groups]; simp, fun g0 => by simp⟩
  | g :: gs, st => by
    rw [sweep_groups_cons_fst]
    rcases group_step_spec limit sb maxSingle maxTotal ageMin ageMax g st with
      h | ⟨p, heq, -, -, -, hgrp⟩
    · rw [h]
      obtain ⟨ns, hns1, hns2⟩ := sweep_bought gs st
      refine ⟨ns, hns1, fun g0 => le_trans (hns2 g0) ?_⟩
      rw [List.count_cons]
      omega
    · rw [heq]
      obtain ⟨ns, hns1, hns2⟩ := sweep_bought gs
        (⟨st.squad ++ [p], st.bought ++ [p], remove_player st.pool p.player_id,
          st.tb - (p.market_value.getD 0 : Int),
          st.salary_used + estimate_salary p.market_value,
          st.paid + p.market_value.getD 0⟩ : BuyState)
      refine ⟨p :: ns, ?_, fun g0 => ?_⟩
      · rw [hns1]
        simp
      · rw [List.filter_cons, List.count_cons]
        by_cases hg : get_position_group p.position == some g0
        · rw [if_pos hg]
          have hgeq : g = g0 := by
            rw [hgrp] at hg
            simpa using hg
          have := hns2 g0
          simp only [List.length_cons]
          rw [if_pos (by simp [hgeq])]
          omega
        · rw [if_neg hg]
          have := hns2 g0
          omega

/-- A sweep over a state with an empty market pool changes nothing and
reports no purchase. -/
theorem sweep_empty_pool : ∀ (gs : List PosGroup) (st : BuyState), st.pool = [] →
    sweep_groups limit sb maxSingle maxTotal ageMin ageMax gs st = (st, false)
  | [], st, _ => by rw [sweep_groups]
  | g :: gs, st, h => by
    have hstep : group_step limit sb maxSingle maxTotal ageMin ageMax g st = (st, false) := by
      by_cases h1 : limit g ≤ count_group st.squad g
      · exact group_step_skip limit sb maxSingle maxTotal ageMin ageMax h1
      · refine group_step_none limit sb maxSingle maxTotal ageMin ageMax h1 ?_
        rw [h]
        rfl
    rw [sweep_groups, hstep]
    rw [sweep_empty_pool gs st h]
    rfl

/-- The pass loop stops immediately on a state with an empty market pool. -/
theorem pass_loop_empty_pool : ∀ (fuel : Nat) (st : BuyState), st.pool = [] →
    pass_loop limit sb maxSingle maxTotal ageMin ageMax fuel st = st
  | 0, _, _ => rfl
  | fuel + 1, st, h => by
    rw [pass_loop]
    split
    · rfl
    · rw [sweep_empty_pool limit sb maxSingle maxTotal ageMin ageMax GROUPS st h]
      rfl

/-- The paid/fees invariant carried through the whole pass loop. -/
theorem pass_loop_fees : ∀ (fuel : Nat) (st : BuyState),
    st.paid ≤ maxTotal → fees_paid st.bought = st.paid →
    (pass_loop limit sb maxSingle maxTotal ageMin ageMax fuel st).paid ≤ maxTotal ∧
      fees_paid (pass_loop limit sb maxSingle maxTotal ageMin ageMax fuel st).bought =
        (pass_loop limit sb maxSingle maxTotal ageMin ageMax fuel st).paid
  | 0, _, h1, h2 => ⟨h1, h2⟩
  | fuel + 1, st, h1, h2 => by
    rw [pass_loop]
    split
    · exact ⟨h1, h2⟩
    · have hs := sweep_fees limit sb maxSingle maxTotal ageMin ageMax GROUPS st h1 h2
      split
      · exact pass_loop_fees fuel _ hs.1 hs.2
      · exact hs

/-- The salary invariant carried through the whole pass loop. -/
theorem pass_loop_salary : ∀ (fuel : Nat) (st : BuyState),
    (st.salary_used : Int) ≤ sb →
    ((pass_loop limit sb maxSingle maxTotal ageMin ageMax fuel st).salary_used : Int) ≤ sb
  | 0, _, h1 => h1
  | fuel + 1, st, h1 => by
    rw [pass_loop]
    split
    · exact h1
    · have hs := sweep_salary limit sb maxSingle maxTotal ageMin ageMax GROUPS st h1
      split
      · exact pass_loop_salary fuel _ hs
      · exact hs

/-- Fuel adequacy of the pass loop: any two fuels strictly beyond the pool
size give the same result, because every purchasing sweep strictly shrinks
the pool — this is the termination argument for the source's unbounded
`while made_purchase` loop. -/
theorem pass_loop_fuel_eq : ∀ (f1 : Nat), ∀ (f2 : Nat) (st : BuyState),
    st.pool.length < f1 → st.pool.length < f2 →
    pass_loop limit sb maxSingle maxTotal ageMin ageMax f1 st =
      pass_loop limit sb maxSingle maxTotal ageMin ageMax f2 st := by
  intro f1
  induction f1 with
  | zero => intro f2 st h1 h2; omega
  | succ n ih =>
    intro f2 st h1 h2
    cases f2 with
    | zero => omega
    | succ m =>
      rw [pass_loop, pass_loop]
      by_cases hp : maxTotal ≤ st.paid
      · rw [if_pos hp, if_pos hp]
      · rw [if_neg hp, if_neg hp]
        by_cases hs : (sweep_groups limit sb maxSingle maxTotal ageMin ageMax GROUPS st).2
        · rw [if_pos hs, if_pos hs]
          have hlt := (sweep_pool limit sb maxSingle maxTotal ageMin ageMax GROUPS st).2 hs
          exact ih m _ (by omega) (by omega)
        · rw [if_neg hs, if_neg hs]

end BuyPhaseLemmas

/-! ## Sell-phase lemmas: group minimums are never violated, protected
prospects are never sold -/

/-- The decline loop never drops a group's count below its minimum. -/
theorem decline_loop_min (declineAge : Nat) (g : PosGroup) :
    ∀ (l squad soldD : List Player) (budget : Int),
      (POSITION_THRESHOLDS g).1 ≤ count_group squad g →
      (POSITION_THRESHOLDS g).1 ≤
        count_group (decline_loop declineAge l (squad, soldD, budget)).1 g
  | [], _, _, _, h => h
  | p :: ps, squad, soldD, budget, h => by
    rw [decline_loop]
    split
    · exact h
    · split
      · exact h
      · split
        · exact decline_loop_min declineAge g ps squad soldD budget h
        · next g1 hg =>
          split
          · next hcnt =>
            by_cases hgg : g1 = g
            · subst hgg
              refine decline_loop_min declineAge g1 ps _ _ _ ?_
              have h2 := count_group_le_erase_add_one p g1 squad
              omega
            · refine decline_loop_min declineAge g ps _ _ _ ?_
              rw [count_group_erase_of_ne p g (by rw [hg]; simp [hgg]) squad]
              exact h
          · exact decline_loop_min declineAge g ps squad soldD budget h

/-- The bloat inner loop never drops a group's count below its minimum:
sells for group `gb` are guarded by the target, which is at least the
group minimum, and sells never touch other groups' counts. -/
theorem bloat_inner_min (gb : PosGroup) (target : Nat) (g : PosGroup)
    (ht : (POSITION_THRESHOLDS gb).1 ≤ target) :
    ∀ (l squad sold : List Player) (cnt : Nat) (budget : Int),
      (∀ x ∈ l, get_position_group x.position = some gb) →
      (POSITION_THRESHOLDS g).1 ≤ count_group squad g →
      (POSITION_THRESHOLDS g).1 ≤
        count_group (bloat_inner gb target l (squad, sold, cnt, budget)).1 g
  | [], _, _, _, _, _, h => h
  | p :: ps, squad, sold, cnt, budget, hl, h => by
    rw [bloat_inner]
    split
    · exact h
    · split
      · exact h
      · next hstop =>
        split
        · exact bloat_inner_min gb target g ht ps squad sold cnt budget
            (fun x hx => hl x (List.mem_cons_of_mem p hx)) h
        · refine bloat_inner_min gb target g ht ps _ _ _ _
            (fun x hx => hl x (List.mem_cons_of_mem p hx)) ?_
          have hp := hl p (List.mem_cons_self p ps)
          by_cases hgg : gb = g
          · subst hgg
            have h2 := count_group_le_erase_add_one p gb squad
            omega
          · rw [count_group_erase_of_ne p g (by rw [hp]; simp [hgg]) squad]
            exact h

/-- The bloat loop never drops a group's count below its minimum. -/
theorem bloat_loop_min (g : PosGroup) :
    ∀ (gs : List PosGroup) (squad sold : List Player) (cnt : Nat) (budget : Int),
      (POSITION_THRESHOLDS g).1 ≤ count_group squad g →
      (POSITION_THRESHOLDS g).1 ≤
        count_group (bloat_loop gs (squad, sold, cnt, budget)).1 g
  | [], _, _, _, _, h => h
  | gb :: gs, squad, sold, cnt, budget, h => by
    rw [bloat_loop]
    split
    · exact h
    · split
      · exact bloat_loop_min g gs squad sold cnt budget h
      · have hmem : ∀ x ∈ sortAscBy mv_key (get_group squad gb),
            get_position_group x.position = some gb := by
          intro x hx
          have h1 := mem_sortAscBy hx
          have h2 := List.mem_filter.1 h1
          simpa using h2.2
        have ht : (POSITION_THRESHOLDS gb).1 ≤
            max (POSITION_THRESHOLDS gb).1 ((POSITION_THRESHOLDS gb).2 - 2) :=
          le_max_left _ _
        have hinner := bloat_inner_min gb
          (max (POSITION_THRESHOLDS gb).1 ((POSITION_THRESHOLDS gb).2 - 2)) g ht
          (sortAscBy mv_key (get_group squad gb)) squad sold cnt budget hmem h
        rcases hbi : bloat_inner gb
            (max (POSITION_THRESHOLDS gb).1 ((POSITION_THRESHOLDS gb).2 - 2))
            (sortAscBy mv_key (get_group squad gb)) (squad, sold, cnt, budget) with
          ⟨s2, so2, c2, b2⟩
        rw [hbi] at hinner
        exact bloat_loop_min g gs s2 so2 c2 b2 hinner

/-- A protected prospect has a present age strictly below 21. -/
theorem prospect_protected_age {p : Player} (hp : prospect_protected p = true) :
    p.age.getD 0 < 21 := by
  have h1 : p.age.getD 99 < PROSPECT_AGE := by
    rw [prospect_protected, Bool.and_eq_true, decide_eq_true_eq, decide_eq_true_eq] at hp
    exact hp.1
  rw [PROSPECT_AGE] at h1
  cases ha : p.age with
  | none => rw [ha] at h1; simp at h1
  | some a =>
    rw [ha] at h1
    simpa using h1

/-- The decline loop never removes a protected prospect (every mode's
decline age is at least 21, and only players at or above the decline age
are ever erased). -/
theorem decline_loop_protected_mem {p : Player} (declineAge : Nat)
    (hp : prospect_protected p = true) (hage : 21 ≤ declineAge) :
    ∀ (l squad soldD : List Player) (budget : Int), p ∈ squad →
      p ∈ (decline_loop declineAge l (squad, soldD, budget)).1
  | [], _, _, _, hmem => hmem
  | q :: qs, squad, soldD, budget, hmem => by
    rw [decline_loop]
    split
    · exact hmem
    · next hq6 =>
      split
      · exact hmem
      · next hq =>
        split
        · exact decline_loop_protected_mem declineAge hp hage qs squad soldD budget hmem
        · split
          · refine decline_loop_protected_mem declineAge hp hage qs _ _ _ ?_
            have hne : p ≠ q := by
              intro hpq
              have h1 := prospect_protected_age hp
              have h2 : declineAge ≤ decline_key q := le_of_not_lt hq
              rw [hpq] at h1
              rw [decline_key] at h2
              omega
            exact (List.mem_erase_of_ne hne).2 hmem
          · exact decline_loop_protected_mem declineAge hp hage qs squad soldD budget hmem

/-- The bloat inner loop never removes a protected prospect. -/
theorem bloat_inner_protected_mem {p : Player} (gb : PosGroup) (target : Nat)
    (hp : prospect_protected p = true) :
    ∀ (l squad sold : List Player) (cnt : Nat) (budget : Int), p ∈ squad →
      p ∈ (bloat_inner gb target l (squad, sold, cnt, budget)).1
  | [], _, _, _, _, hmem => hmem
  | q :: qs, squad, sold, cnt, budget, hmem => by
    rw [bloat_inner]
    split
    · exact hmem
    · split
      · exact hmem
      · split
        · exact bloat_inner_protected_mem gb target hp qs squad sold cnt budget hmem
        · next hqp =>
          refine bloat_inner_protected_mem gb target hp qs _ _ _ _ ?_
          have hne : p ≠ q := by
            intro hpq
            rw [hpq] at hp
            rw [hp] at hqp
            exact hqp rfl
          exact (List.mem_erase_of_ne hne).2 hmem

/-- The bloat loop never removes a protected prospect. -/
theorem bloat_loop_protected_mem {p : Player} (hp : prospect_protected p = true) :
    ∀ (gs : List PosGroup) (squad sold : List Player) (cnt : Nat) (budget : Int),
      p ∈ squad → p ∈ (bloat_loop gs (squad, sold, cnt, budget)).1
  | [], _, _, _, _, hmem => hmem
  | gb :: gs, squad, sold, cnt, budget, hmem => by
    rw [bloat_loop]
    split
    · exact hmem
    · split
      · exact bloat_loop_protected_mem hp gs squad sold cnt budget hmem
      · have hinner := bloat_inner_protected_mem gb
          (max (POSITION_THRESHOLDS gb).1 ((POSITION_THRESHOLDS gb).2 - 2)) hp
          (sortAscBy mv_key (get_group squad gb)) squad sold cnt budget hmem
        rcases hbi : bloat_inner gb
            (max (POSITION_THRESHOLDS gb).1 ((POSITION_THRESHOLDS gb).2 - 2))
            (sortAscBy mv_key (get_group squad gb)) (squad, sold, cnt, budget) with
          ⟨s2, so2, c2, b2⟩
        rw [hbi] at hinner
        exact bloat_loop_protected_mem hp gs s2 so2 c2 b2 hinner

/-! ## Claim theorems -/

/-- Helper for the termination claim: with an empty market list, `buy_phase`
makes no purchases and returns the squad, budget and existing salary
commitment unchanged. -/
theorem buy_phase_empty_market (squad : List Player) (tb sb : Int) (otb : Nat)
    (mode : StrategyMode) :
    buy_phase squad [] tb sb otb mode = (squad, [], tb, total_salary squad) := by
  have h1 := pass_loop_empty_pool (fun g => (POSITION_THRESHOLDS g).1) sb
    (max_single_fee otb mode) (max_total_fees otb mode) none none
    ((⟨squad, [], mk_pool [], tb, total_salary squad, 0⟩ : BuyState).pool.length + 1)
    ⟨squad, [], mk_pool [], tb, total_salary squad, 0⟩ rfl
  have h2 := pass_loop_empty_pool (fun g => (POSITION_THRESHOLDS g).2) sb
    (max_single_fee otb mode) (max_total_fees otb mode)
    (some (get_mode_params mode).2.1) (some (get_mode_params mode).2.2.1)
    ((pass_loop (fun g => (POSITION_THRESHOLDS g).1) sb
        (max_single_fee otb mode) (max_total_fees otb mode) none none
        ((⟨squad, [], mk_pool [], tb, total_salary squad, 0⟩ : BuyState).pool.length + 1)
        ⟨squad, [], mk_pool [], tb, total_salary squad, 0⟩).pool.length + 1)
    (pass_loop (fun g => (POSITION_THRESHOLDS g).1) sb
        (max_single_fee otb mode) (max_total_fees otb mode) none none
        ((⟨squad, [], mk_pool [], tb, total_salary squad, 0⟩ : BuyState).pool.length + 1)
        ⟨squad, [], mk_pool [], tb, total_salary squad, 0⟩)
    (by rw [h1]; rfl)
  show ((pass_loop (fun g => (POSITION_THRESHOLDS g).2) sb
      (max_single_fee otb mode) (max_total_fees otb mode)
      (some (get_mode_params mode).2.1) (some (get_mode_params mode).2.2.1)
      ((pass_loop (fun g => (POSITION_THRESHOLDS g).1) sb
          (max_single_fee otb mode) (max_total_fees otb mode) none none
          ((⟨squad, [], mk_pool [], tb, total_salary squad, 0⟩ : BuyState).pool.length + 1)
          ⟨squad, [], mk_pool [], tb, total_salary squad, 0⟩).pool.length + 1)
      (pass_loop (fun g => (POSITION_THRESHOLDS g).1) sb
          (max_single_fee otb mode) (max_total_fees otb mode) none none
          ((⟨squad, [], mk_pool [], tb, total_salary squad, 0⟩ : BuyState).pool.length + 1)
          ⟨squad, [], mk_pool [], tb, total_salary squad, 0⟩)).squad,
    (pass_loop (fun g => (POSITION_THRESHOLDS g).2) sb
      (max_single_fee otb mode) (max_total_fees otb mode)
      (some (get_mode_params mode).2.1) (some (get_mode_params mode).2.2.1)
      ((pass_loop (fun g => (POSITION_THRESHOLDS g).1) sb
          (max_single_fee otb mode) (max_total_fees otb mode) none none
          ((⟨squad, [], mk_pool [], tb, total_salary squad, 0⟩ : BuyState).pool.length + 1)
          ⟨squad, [], mk_pool [], tb, total_salary squad, 0⟩).pool.length + 1)
      (pass_loop (fun g => (POSITION_THRESHOLDS g).1) sb
          (max_single_fee otb mode) (max_total_fees otb mode) none none
          ((⟨squad, [], mk_pool [], tb, total_salary squad, 0⟩ : BuyState).pool.length + 1)
          ⟨squad, [], mk_pool [], tb, total_salary squad, 0⟩)).bought,
    (pass_loop (fun g => (POSITION_THRESHOLDS g).2) sb
      (max_single_fee otb mode) (max_total_fees otb mode)
      (some (get_mode_params mode).2.1) (some (get_mode_params mode).2.2.1)
      ((pass_loop (fun g => (POSITION_THRESHOLDS g).1) sb
          (max_single_fee otb mode) (max_total_fees otb mode) none none
          ((⟨squad, [], mk_pool [], tb, total_salary squad, 0⟩ : BuyState).pool.length + 1)
          ⟨squad, [], mk_pool [], tb, total_salary squad, 0⟩).pool.length + 1)
      (pass_loop (fun g => (POSITION_THRESHOLDS g).1) sb
          (max_single_fee otb mode) (max_total_fees otb mode) none none
          ((⟨squad, [], mk_pool [], tb, total_salary squad, 0⟩ : BuyState).pool.length + 1)
          ⟨squad, [], mk_pool [], tb, total_salary squad, 0⟩)).tb,
    (pass_loop (fun g => (POSITION_THRESHOLDS g).2) sb
      (max_single_fee otb mode) (max_total_fees otb mode)
      (some (get_mode_params mode).2.1) (some (get_mode_params mode).2.2.1)
      ((pass_loop (fun g => (POSITION_THRESHOLDS g).1) sb
          (max_single_fee otb mode) (max_total_fees otb mode) none none
          ((⟨squad, [], mk_pool [], tb, total_salary squad, 0⟩ : BuyState).pool.length + 1)
          ⟨squad, [], mk_pool [], tb, total_salary squad, 0⟩).pool.length + 1)
      (pass_loop (fun g => (POSITION_THRESHOLDS g).1) sb
          (max_single_fee otb mode) (max_total_fees otb mode) none none
          ((⟨squad, [], mk_pool [], tb, total_salary squad, 0⟩ : BuyState).pool.length + 1)
          ⟨squad, [], mk_pool [], tb, total_salary squad, 0⟩)).salary_used) =
    (squad, [], tb, total_salary squad)
  rw [h2, h1]

/-- C1 (counterexample): the claim asserts the headcount floor for every
input squad, but a sell phase run on the empty squad leaves the GK count at
0, below the minimum of 2. -/
theorem C1_counterexample :
    count_group (sell_phase [] 0 .balanced).1 .GK < (POSITION_THRESHOLDS .GK).1 := by
  decide

/-- C1 (amended): for every squad, strategy mode and position group, if the
input squad meets the group's minimum headcount, then the squad returned by
`sell_phase` still meets it — the sell phase never drops a group below its
minimum (a group already below minimum on input may remain below). -/
theorem C1_amended (squad : List Player) (tb : Int) (mode : StrategyMode)
    (g : PosGroup) (h : (POSITION_THRESHOLDS g).1 ≤ count_group squad g) :
    (POSITION_THRESHOLDS g).1 ≤ count_group (sell_phase squad tb mode).1 g := by
  have h1 := decline_loop_min (get_mode_params mode).1 g
    (sortDescBy decline_key squad) squad [] tb h
  exact bloat_loop_min g GROUPS _ _ 0 _ h1

/-- C1 (witness): the amended theorem applied to a squad with two
goalkeepers. -/
theorem C1_witness :
    (POSITION_THRESHOLDS .GK).1 ≤
      count_group (sell_phase
        [⟨"w1", "W1", some 25, some "Goalkeeper", some 5⟩,
         ⟨"w2", "W2", some 25, some "Goalkeeper", some 5⟩] 0 .balanced).1 .GK :=
  C1_amended _ 0 .balanced .GK (by decide)

/-- C2: for every input, the sum of the fees of the players bought by
`buy_phase` never exceeds `maxTotalFees = int(original_transfer_budget *
total_spend_ratio(mode))`; in particular in conservative mode it is at most
`int(original_transfer_budget * 0.50)`. -/
theorem C2_total_spend_cap (squad market : List Player) (tb sb : Int)
    (otb : Nat) (mode : StrategyMode) :
    fees_paid (buy_phase squad market tb sb otb mode).2.1 ≤ max_total_fees otb mode := by
  have h1 := pass_loop_fees (fun g => (POSITION_THRESHOLDS g).1) sb
    (max_single_fee otb mode) (max_total_fees otb mode) none none
    ((mk_pool market).length + 1)
    ⟨squad, [], mk_pool market, tb, total_salary squad, 0⟩ (Nat.zero_le _) rfl
  have h2 := pass_loop_fees (fun g => (POSITION_THRESHOLDS g).2) sb
    (max_single_fee otb mode) (max_total_fees otb mode)
    (some (get_mode_params mode).2.1) (some (get_mode_params mode).2.2.1)
    ((pass_loop (fun g => (POSITION_THRESHOLDS g).1) sb
        (max_single_fee otb mode) (max_total_fees otb mode) none none
        ((mk_pool market).length + 1)
        ⟨squad, [], mk_pool market, tb, total_salary squad, 0⟩).pool.length + 1)
    (pass_loop (fun g => (POSITION_THRESHOLDS g).1) sb
        (max_single_fee otb mode) (max_total_fees otb mode) none none
        ((mk_pool market).length + 1)
        ⟨squad, [], mk_pool market, tb, total_salary squad, 0⟩)
    h1.1 h1.2
  exact h2.2.le.trans h2.1

/-- C5 (counterexample): the claim asserts `salary_budget - salary_used ≥ 0`
for every input, but `buy_phase` starts `salary_used` from the incoming
squad's salary commitment: a squad whose existing salary already exceeds the
budget leaves the difference negative even though nothing is bought. -/
theorem C5_counterexample :
    (buy_phase [⟨"p1", "P1", some 25, some "Goalkeeper", some 100⟩] [] 0 0 0
        .balanced).2.2.2 = 10 ∧
    ¬ (0 ≤ (0 : Int) -
        ((buy_phase [⟨"p1", "P1", some 25, some "Goalkeeper", some 100⟩] [] 0 0 0
          .balanced).2.2.2 : Int)) := by
  decide

/-- C5 (amended): whenever the post-sell squad's estimated salary commitment
fits within the salary budget, the `salary_used` returned by `buy_phase`
still fits: the buy phase never turns a non-negative remaining salary budget
negative. -/
theorem C5_amended (squad market : List Player) (tb sb : Int) (otb : Nat)
    (mode : StrategyMode) (h : (total_salary squad : Int) ≤ sb) :
    ((buy_phase squad market tb sb otb mode).2.2.2 : Int) ≤ sb := by
  have h1 := pass_loop_salary (fun g => (POSITION_THRESHOLDS g).1) sb
    (max_single_fee otb mode) (max_total_fees otb mode) none none
    ((mk_pool market).length + 1)
    ⟨squad, [], mk_pool market, tb, total_salary squad, 0⟩ h
  have h2 := pass_loop_salary (fun g => (POSITION_THRESHOLDS g).2) sb
    (max_single_fee otb mode) (max_total_fees otb mode)
    (some (get_mode_params mode).2.1) (some (get_mode_params mode).2.2.1)
    ((pass_loop (fun g => (POSITION_THRESHOLDS g).1) sb
        (max_single_fee otb mode) (max_total_fees otb mode) none none
        ((mk_pool market).length + 1)
        ⟨squad, [], mk_pool market, tb, total_salary squad, 0⟩).pool.length + 1)
    (pass_loop (fun g => (POSITION_THRESHOLDS g).1) sb
        (max_single_fee otb mode) (max_total_fees otb mode) none none
        ((mk_pool market).length + 1)
        ⟨squad, [], mk_pool market, tb, total_salary squad, 0⟩)
    h1
  exact h2

/-- C5 (witness): the amended theorem at a one-goalkeeper market whose
salary fits a positive budget. -/
theorem C5_witness :
    ((buy_phase [] [⟨"m1", "M1", some 25, some "Goalkeeper", some 50⟩] 100 100 100
        .balanced).2.2.2 : Int) ≤ 100 :=
  C5_amended [] [⟨"m1", "M1", some 25, some "Goalkeeper", some 50⟩] 100 100 100
    .balanced (by decide)

/-- C6: no player with a recorded age below 21 and a recorded market value
of at least 3,000,000 is ever removed by `sell_phase` (the decline rule
cannot reach them either, since every mode's decline age is ≥ 21, so they
are simply still in the returned squad); and, concretely, bloat-sell skips
the protected cheapest goalkeeper and sells the next cheapest one instead of
stopping the group. -/
theorem C6_prospect_protection :
    (∀ (squad : List Player) (tb : Int) (mode : StrategyMode) (p : Player) (a v : Nat),
        p.age = some a → a < 21 → p.market_value = some v → 3000000 ≤ v →
        p ∈ squad → p ∈ (sell_phase squad tb mode).1) ∧
    ((sell_phase
        [⟨"k1", "K1", some 19, some "Goalkeeper", some 5000000⟩,
         ⟨"k2", "K2", some 25, some "Goalkeeper", some 6000000⟩,
         ⟨"k3", "K3", some 25, some "Goalkeeper", some 7000000⟩] 0 .balanced).2.1 =
        [⟨"k2", "K2", some 25, some "Goalkeeper", some 6000000⟩] ∧
      ⟨"k1", "K1", some 19, some "Goalkeeper", some 5000000⟩ ∈
        (sell_phase
          [⟨"k1", "K1", some 19, some "Goalkeeper", some 5000000⟩,
           ⟨"k2", "K2", some 25, some "Goalkeeper", some 6000000⟩,
           ⟨"k3", "K3", some 25, some "Goalkeeper", some 7000000⟩] 0 .balanced).1) := by
  constructor
  · intro squad tb mode p a v ha hlt hv hval hmem
    have hp : prospect_protected p = true := by
      rw [prospect_protected, ha, hv]
      simp only [Option.getD_some, Bool.and_eq_true, decide_eq_true_eq]
      exact ⟨hlt, hval⟩
    have hage : 21 ≤ (get_mode_params mode).1 := by cases mode <;> decide
    have h1 := decline_loop_protected_mem (get_mode_params mode).1 hp hage
      (sortDescBy decline_key squad) squad [] tb hmem
    exact bloat_loop_protected_mem hp GROUPS _ _ 0 _ h1
  · exact ⟨by decide, by decide⟩

/-- C6 (witness): the protection theorem applied to a single protected
goalkeeper. -/
theorem C6_witness :
    ⟨"k1", "K1", some 19, some "Goalkeeper", some 5000000⟩ ∈
      (sell_phase [⟨"k1", "K1", some 19, some "Goalkeeper", some 5000000⟩] 0
        .win_now).1 :=
  C6_prospect_protection.1 _ 0 .win_now _ 19 5000000 rfl (by decide) rfl (by decide)
    (by decide)

/-- C10: a player with an absent age never passes the bloat-sell
prospect-protection test (the code substitutes 99 for the missing age
there), while the decline ordering key substitutes 0; concretely, an ageless
goalkeeper worth 5,000,000 is bloat-sold even though his value is above the
protection threshold. -/
theorem C10_missing_age :
    (∀ p : Player, p.age = none → prospect_protected p = false) ∧
    (∀ p : Player, p.age = none → decline_key p = 0) ∧
    (sell_phase
        [⟨"a1", "A1", none, some "Goalkeeper", some 5000000⟩,
         ⟨"k2", "K2", some 25, some "Goalkeeper", some 6000000⟩,
         ⟨"k3", "K3", some 25, some "Goalkeeper", some 7000000⟩] 0 .balanced).2.1 =
      [⟨"a1", "A1", none, some "Goalkeeper", some 5000000⟩] := by
  refine ⟨?_, ?_, by decide⟩
  · intro p h
    rw [prospect_protected, h]
    simp [PROSPECT_AGE]
  · intro p h
    rw [decline_key, h]
    rfl

/-- C10 (witness): the two absent-age facts applied to the ageless
goalkeeper of the concrete scenario. -/
theorem C10_witness :
    prospect_protected ⟨"a1", "A1", none, some "Goalkeeper", some 5000000⟩ = false ∧
    decline_key ⟨"a1", "A1", none, some "Goalkeeper", some 5000000⟩ = 0 :=
  ⟨C10_missing_age.1 _ rfl, C10_missing_age.2.1 _ rfl⟩

/-- C3 (counterexample): with original budget 10 in balanced mode
(`maxTotalFees = 10`), the first three purchases already pay fees totalling
exactly the cap, yet a fourth, zero-fee player (absent market value) is
still purchased in the same sweep — so reaching the cap does not stop every
further purchase, contrary to the claim. -/
theorem C3_counterexample :
    (buy_phase [] [⟨"g4", "G4", some 25, some "Goalkeeper", some 4⟩,
        ⟨"g2", "G2", some 25, some "Goalkeeper", some 2⟩,
        ⟨"d4", "D4", some 25, some "Centre-Back", some 4⟩,
        ⟨"d0", "D0", none, some "Centre-Back", none⟩] 100 100 10 .balanced).2.1 =
      [⟨"g4", "G4", some 25, some "Goalkeeper", some 4⟩,
       ⟨"d4", "D4", some 25, some "Centre-Back", some 4⟩,
       ⟨"g2", "G2", some 25, some "Goalkeeper", some 2⟩,
       ⟨"d0", "D0", none, some "Centre-Back", none⟩] ∧
    fees_paid [⟨"g4", "G4", some 25, some "Goalkeeper", some 4⟩,
       ⟨"d4", "D4", some 25, some "Centre-Back", some 4⟩,
       ⟨"g2", "G2", some 25, some "Goalkeeper", some 2⟩] =
      max_total_fees 10 .balanced := by
  decide

/-- C3 (amended): `totalFeesPaid` is compared against `maxTotalFees` at the
start of every sweep, not before every individual purchase attempt: once
`totalFeesPaid ≥ maxTotalFees` no further sweep runs (the pass loop returns
its state unchanged), and within the sweep in which the cap was reached only
zero-fee players (absent or zero market value) can still be purchased, since
the effective cap is then non-positive. -/
theorem C3_amended :
    (∀ (limit : PosGroup → Nat) (sb : Int) (maxSingle maxTotal : Nat)
        (ageMin ageMax : Option Nat) (fuel : Nat) (st : BuyState),
        maxTotal ≤ st.paid →
        pass_loop limit sb maxSingle maxTotal ageMin ageMax fuel st = st) ∧
    (∀ (pool : List Player) (g : PosGroup) (tb sb : Int) (su : Nat)
        (ageMin ageMax : Option Nat) (cap : Int),
        cap ≤ 0 →
        (buy_best_candidate pool g tb sb su ageMin ageMax cap).2.2.2.1 = 0) := by
  constructor
  · intro limit sb maxSingle maxTotal ageMin ageMax fuel st h
    cases fuel with
    | zero => rfl
    | succ n => rw [pass_loop, if_pos h]
  · intro pool g tb sb su ageMin ageMax cap hcap
    cases hp : (buy_best_candidate pool g tb sb su ageMin ageMax cap).1 with
    | none => rw [buy_best_none hp]
    | some p =>
      have heq := (buy_best_some hp).1
      have hle := (buy_best_some hp).2.1
      rw [heq]
      show p.market_value.getD 0 = 0
      omega

/-- C3 (witness): the amended theorem at a state already at its cap and at a
zero effective cap. -/
theorem C3_witness :
    pass_loop (fun g => (POSITION_THRESHOLDS g).1) 0 0 0 none none 3
        ⟨[], [], [], 0, 0, 5⟩ = ⟨[], [], [], 0, 0, 5⟩ ∧
    (buy_best_candidate [⟨"z", "Z", some 25, some "Goalkeeper", some 7⟩] .GK 100 100 0
        none none 0).2.2.2.1 = 0 :=
  ⟨C3_amended.1 _ 0 0 0 none none 3 _ (by decide),
   C3_amended.2 _ .GK 100 100 0 none none 0 (by decide)⟩

/-- C4 (counterexample): with two goalkeepers and one defender on the
market and an empty squad, pass 1 buys in the order GK, DEF, GK — the
defender is bought while the GK group is still below its minimum of 2,
because the scan only restarts from the first group after a full sweep, not
after every successful purchase. -/
theorem C4_counterexample :
    (buy_phase [] [⟨"g1", "G1", some 25, some "Goalkeeper", some 3⟩,
        ⟨"g2", "G2", some 25, some "Goalkeeper", some 2⟩,
        ⟨"d1", "D1", some 25, some "Centre-Back", some 3⟩] 100 100 100 .balanced).2.1 =
      [⟨"g1", "G1", some 25, some "Goalkeeper", some 3⟩,
       ⟨"d1", "D1", some 25, some "Centre-Back", some 3⟩,
       ⟨"g2", "G2", some 25, some "Goalkeeper", some 2⟩] ∧
    get_position_group (some "Centre-Back") = some .DEF ∧
    get_position_group (some "Goalkeeper") = some .GK := by
  decide

/-- C4 (amended): within one sweep each group is attempted at most once, so
one sweep adds at most one player per position group to the bought list
(multiple purchases for one group happen across successive sweeps); the
group scan restarts from the first group only after a sweep that made at
least one purchase. -/
theorem C4_amended :
    (∀ (limit : PosGroup → Nat) (sb : Int) (maxSingle maxTotal : Nat)
        (ageMin ageMax : Option Nat) (st : BuyState) (g0 : PosGroup),
        (((sweep_groups limit sb maxSingle maxTotal ageMin ageMax GROUPS st).1.bought.drop
            st.bought.length).filter fun p =>
              get_position_group p.position == some g0).length ≤ 1) ∧
    (∀ (limit : PosGroup → Nat) (sb : Int) (maxSingle maxTotal : Nat)
        (ageMin ageMax : Option Nat) (fuel : Nat) (st : BuyState),
        ¬ maxTotal ≤ st.paid →
        (sweep_groups limit sb maxSingle maxTotal ageMin ageMax GROUPS st).2 = true →
        pass_loop limit sb maxSingle maxTotal ageMin ageMax (fuel + 1) st =
          pass_loop limit sb maxSingle maxTotal ageMin ageMax fuel
            (sweep_groups limit sb maxSingle maxTotal ageMin ageMax GROUPS st).1) := by
  constructor
  · intro limit sb maxSingle maxTotal ageMin ageMax st g0
    obtain ⟨ns, hns1, hns2⟩ := sweep_bought limit sb maxSingle maxTotal ageMin ageMax GROUPS st
    rw [hns1, List.drop_left]
    have h1 := hns2 g0
    have h2 : List.count g0 GROUPS ≤ 1 := by cases g0 <;> decide
    omega
  · intro limit sb maxSingle maxTotal ageMin ageMax fuel st h1 h2
    rw [pass_loop, if_neg h1, if_pos h2]

/-- C4 (witness): the amended theorem at the one-goalkeeper market state. -/
theorem C4_witness :
    (((sweep_groups (fun g => (POSITION_THRESHOLDS g).1) 100 40 100 none none GROUPS
        ⟨[], [], [⟨"g1", "G1", some 25, some "Goalkeeper", some 3⟩], 100, 0, 0⟩).1.bought.drop
          0).filter fun p => get_position_group p.position == some .GK).length ≤ 1 ∧
    pass_loop (fun g => (POSITION_THRESHOLDS g).1) 100 40 100 none none 1
        ⟨[], [], [⟨"g1", "G1", some 25, some "Goalkeeper", some 3⟩], 100, 0, 0⟩ =
      pass_loop (fun g => (POSITION_THRESHOLDS g).1) 100 40 100 none none 0
        (sweep_groups (fun g => (POSITION_THRESHOLDS g).1) 100 40 100 none none GROUPS
          ⟨[], [], [⟨"g1", "G1", some 25, some "Goalkeeper", some 3⟩], 100, 0, 0⟩).1 :=
  ⟨C4_amended.1 (fun g => (POSITION_THRESHOLDS g).1) 100 40 100 none none
    ⟨[], [], [⟨"g1", "G1", some 25, some "Goalkeeper", some 3⟩], 100, 0, 0⟩ .GK,
   C4_amended.2 (fun g => (POSITION_THRESHOLDS g).1) 100 40 100 none none 0
    ⟨[], [], [⟨"g1", "G1", some 25, some "Goalkeeper", some 3⟩], 100, 0, 0⟩
    (by decide) (by decide)⟩

/-- C7 (counterexample): the claim says the new market value is
`round(marketValue * multiplier)`, but the code truncates with `int(...)`.
For age 18 (multiplier 1.15) and market value 11 the exact product is 12.65:
the code yields 12, the claim's rounding yields 13. -/
theorem C7_counterexample :
    ((apply_age_progression [⟨"y", "Y", some 18, some "Goalkeeper", some 11⟩]).map
        fun p => p.market_value) = [some 12] ∧
    spec_round (11 * get_multiplier100 18) 100 = 13 ∧
    ((apply_age_progression [⟨"y", "Y", some 18, some "Goalkeeper", some 11⟩]).map
        fun p => p.market_value) ≠
      [some (spec_round (11 * get_multiplier100 18) 100)] := by
  decide

/-- C7 (amended): `apply_age_progression` preserves the squad's size and
membership order, increments every age by one from `(age or 0)`, and, for a
present market value, replaces it by the truncation (floor, `int(...)`, not
rounding) of the product with the pre-increment-age multiplier, leaving an
absent market value absent (a present zero value is left as zero, which
coincides with the truncated product). -/
theorem C7_amended (squad : List Player) :
    (apply_age_progression squad).length = squad.length ∧
    List.Forall₂ (fun p q =>
      q.player_id = p.player_id ∧ q.name = p.name ∧ q.position = p.position ∧
      q.age = some (p.age.getD 0 + 1) ∧
      q.market_value =
        (match p.market_value with
         | none => none
         | some v =>
           if v = 0 then some 0
           else some (v * get_multiplier100 (p.age.getD 0) / 100)))
      squad (apply_age_progression squad) := by
  constructor
  · simp [apply_age_progression]
  · induction squad with
    | nil => exact List.Forall₂.nil
    | cons p ps ih =>
      refine List.Forall₂.cons ?_ ih
      cases hmv : p.market_value with
      | none => simp [age_step, hmv]
      | some v =>
        by_cases hv : v = 0
        · simp [age_step, hmv, hv]
        · simp [age_step, hmv, hv]

/-- C8: termination of `buy_phase` — every sweep that reports a purchase
strictly shrinks the market pool; consequently any fuel beyond the pool size
gives the pass loop the same result as the `pool.length + 1` fuel
`buy_phase` uses (the loop reaches its fixpoint: a sweep with zero purchases
or the spend cap); and with an empty market `buy_phase` returns immediately
with zero purchases and the squad unchanged. -/
theorem C8_termination :
    (∀ (limit : PosGroup → Nat) (sb : Int) (maxSingle maxTotal : Nat)
        (ageMin ageMax : Option Nat) (gs : List PosGroup) (st : BuyState),
        (sweep_groups limit sb maxSingle maxTotal ageMin ageMax gs st).2 = true →
        (sweep_groups limit sb maxSingle maxTotal ageMin ageMax gs st).1.pool.length <
          st.pool.length) ∧
    (∀ (limit : PosGroup → Nat) (sb : Int) (maxSingle maxTotal : Nat)
        (ageMin ageMax : Option Nat) (fuel : Nat) (st : BuyState),
        st.pool.length < fuel →
        pass_loop limit sb maxSingle maxTotal ageMin ageMax fuel st =
          pass_loop limit sb maxSingle maxTotal ageMin ageMax (st.pool.length + 1) st) ∧
    (∀ (squad : List Player) (tb sb : Int) (otb : Nat) (mode : StrategyMode),
        (buy_phase squad [] tb sb otb mode).2.1 = [] ∧
        (buy_phase squad [] tb sb otb mode).1 = squad) := by
  refine ⟨?_, ?_, ?_⟩
  · intro limit sb maxSingle maxTotal ageMin ageMax gs st h
    exact (sweep_pool limit sb maxSingle maxTotal ageMin ageMax gs st).2 h
  · intro limit sb maxSingle maxTotal ageMin ageMax fuel st h
    exact pass_loop_fuel_eq limit sb maxSingle maxTotal ageMin ageMax fuel
      (st.pool.length + 1) st h (by omega)
  · intro squad tb sb otb mode
    rw [buy_phase_empty_market]
    exact ⟨rfl, rfl⟩

/-- C8 (witness): the termination facts at a one-goalkeeper market. -/
theorem C8_witness :
    (sweep_groups (fun g => (POSITION_THRESHOLDS g).1) 100 40 100 none none GROUPS
        ⟨[], [], [⟨"g9", "G9", some 25, some "Goalkeeper", some 3⟩], 100, 0, 0⟩).1.pool.length <
      1 ∧
    pass_loop (fun g => (POSITION_THRESHOLDS g).1) 100 40 100 none none 5
        ⟨[], [], [⟨"g9", "G9", some 25, some "Goalkeeper", some 3⟩], 100, 0, 0⟩ =
      pass_loop (fun g => (POSITION_THRESHOLDS g).1) 100 40 100 none none 2
        ⟨[], [], [⟨"g9", "G9", some 25, some "Goalkeeper", some 3⟩], 100, 0, 0⟩ :=
  ⟨C8_termination.1 (fun g => (POSITION_THRESHOLDS g).1) 100 40 100 none none GROUPS
    ⟨[], [], [⟨"g9", "G9", some 25, some "Goalkeeper", some 3⟩], 100, 0, 0⟩ (by decide),
   C8_termination.2.1 (fun g => (POSITION_THRESHOLDS g).1) 100 40 100 none none 5
    ⟨[], [], [⟨"g9", "G9", some 25, some "Goalkeeper", some 3⟩], 100, 0, 0⟩ (by decide)⟩

/-- C9 (counterexample): the claim computes the received fee of a sold
player as `round((marketValue or 0) * 0.85)`, but the code truncates with
`int(...)`: a sold player of market value 1 contributes 0 (truncated from
0.85), not 1 (rounded), so the claimed netSpend is off by one. -/
theorem C9_counterexample :
    (compute_kpis [] [] [] [⟨"s1", "S1", some 25, some "Goalkeeper", some 1⟩] 0 0
        0).net_spend = 0 ∧
    spec_round (1 * 85) 100 = 1 ∧
    (compute_kpis [] [] [] [⟨"s1", "S1", some 25, some "Goalkeeper", some 1⟩] 0 0
        0).net_spend ≠ (0 : Int) - (spec_round (1 * 85) 100 : Int) := by
  decide

/-- C9 (amended): for every pair of bought and sold lists, the netSpend KPI
equals the sum over bought players of `(marketValue or 0)` minus the sum
over sold players of the truncation `int((marketValue or 0) * 0.85)`
(floor, not rounding). -/
theorem C9_amended (squad_before squad_after bought sold : List Player)
    (tbr slb : Int) (su : Nat) :
    (compute_kpis squad_before squad_after bought sold tbr slb su).net_spend =
      (((bought.map fun p => p.market_value.getD 0).sum : Nat) : Int) -
        (((sold.map fun p => p.market_value.getD 0 * 85 / 100).sum : Nat) : Int) := rfl
